import Mathlib

/-!
Verification of the variant-building transform of `make_upgates_variants_v3.py`.

The program consumes a tabular dataset (pandas `DataFrame` of strings) and
produces a new dataset whose row 0 is a synthesized MAIN (parent) record and
whose rows 1..N are per-variant records derived from the input rows.

Shallow embedding conventions:
* a pandas row (`Series`) is an association list from column name to string
  value; assigning to an existing label overwrites it (every occurrence),
  assigning to a fresh label appends it at the end, exactly as a string-keyed
  `Series.__setitem__` behaves;
* a `DataFrame` is a `Dataset`: the ordered list of column names plus the list
  of rows;
* Python `str.strip` / `str.lower` / `str.upper` are `String.trim` /
  `String.toLower` / `String.toUpper` (ASCII, which covers every name and
  marker the program matches on);
* the regex split `re.split(r"[;|,]\s*", s)` is modelled as splitting on the
  three delimiter characters; the `\s*` part only swallows whitespace that the
  program's own per-fragment `strip()` removes, and the fragment before the
  first match is identical under both readings, so the model agrees with the
  regex wherever the program uses it;
* `pd.DataFrame(out_rows, columns=cols)` is projection of each row onto `cols`;
* the two fatal exits (`RuntimeError` for the missing `[PRODUCT_CODE]` header,
  pandas `IndexError` for an out-of-range `iloc`) are an `Except` error result.
-/

/-- ASCII whitespace recognised by the model of Python `str.strip` (all the
whitespace that can occur in the program's headers and markers). -/
def isWS (c : Char) : Bool :=
  c == ' ' || c == '\t' || c == '\n' || c == '\r'

/-- Drop leading whitespace of a character list. -/
def dropWS : List Char → List Char
  | [] => []
  | c :: cs => if isWS c then dropWS cs else c :: cs

/-- Python `str.strip()` on the character list (both ends). -/
def trimList (l : List Char) : List Char :=
  (dropWS (dropWS l).reverse).reverse

/-- Python `str.strip()`. -/
def strTrim (s : String) : String := String.mk (trimList s.data)

/-- ASCII lower-casing of one character (Python `str.lower` on the ASCII
names the program compares). -/
def lowerChar (c : Char) : Char :=
  if 65 ≤ c.toNat ∧ c.toNat ≤ 90 then Char.ofNat (c.toNat + 32) else c

/-- ASCII upper-casing of one character. -/
def upperChar (c : Char) : Char :=
  if 97 ≤ c.toNat ∧ c.toNat ≤ 122 then Char.ofNat (c.toNat - 32) else c

/-- Python `str.lower()`. -/
def strLower (s : String) : String := String.mk (s.data.map lowerChar)

/-- Python `str.upper()`. -/
def strUpper (s : String) : String := String.mk (s.data.map upperChar)

/-- Whether `needle` occurs as a contiguous run inside `hay`. -/
def hasSub : List Char → List Char → Bool
  | hay, needle =>
    match hay with
    | [] => needle.isEmpty
    | _ :: t => needle.isPrefixOf hay || hasSub t needle

/-- A pandas row: ordered association list from column name to string value. -/
abbrev Row := List (String × String)

/-- Value of column `c` in row `r`; pandas returns the (first) matching label.
Missing labels are read as the empty string (the reader coerces missing cells
to `""`, and the program only reads columns it resolved from the header). -/
def getVal : Row → String → String
  | [], _ => ""
  | p :: r, c => if p.1 == c then p.2 else getVal r c

/-- `Series.__setitem__`: overwrite an existing label, else append a new one. -/
def setVal : Row → String → String → Row
  | [], c, v => [(c, v)]
  | p :: r, c, v => if p.1 == c then (c, v) :: setVal r c v else p :: setVal r c v

/-- `if h[K]: row[h[K]] = v` — guarded assignment through an optional column. -/
def setOpt (r : Row) (c : Option String) (v : String) : Row :=
  match c with
  | some cc => setVal r cc v
  | none => r

/-- A pandas DataFrame of strings: ordered column names plus rows. -/
structure Dataset where
  cols : List String
  rows : List Row
deriving DecidableEq

/-- `pd.DataFrame(out_rows, columns=cols)` re-indexes each row onto `cols`. -/
def projectRow (cols : List String) (r : Row) : Row :=
  cols.map (fun c => (c, getVal r c))

/-- Row at position `i` (defaulting to an empty row out of range). -/
def rowIx (l : List Row) (i : Nat) : Row := l.getD i []

/-- Python substring test `needle in hay`. -/
def containsSub (hay needle : String) : Bool :=
  hasSub hay.data needle.data

/-- The bracketed header variant `f"[{F}]"` tried by `normalize_header_map`. -/
def bracket (f : String) : String := "[" ++ f ++ "]"

/-- Exact pass of `find` in `normalize_header_map`:
`c.strip().lower() == v.lower()`. -/
def findColExact (cols : List String) (v : String) : Option String :=
  cols.find? (fun c => strLower (strTrim c) == strLower v)

/-- Substring pass of `find` in `normalize_header_map`:
`v.lower() in c.strip().lower()`. -/
def findColSub (cols : List String) (v : String) : Option String :=
  cols.find? (fun c => containsSub (strLower (strTrim c)) (strLower v))

/-- `find(name_variants)`: full exact pass over the name variants, then a full
substring pass. -/
def findCol (cols : List String) (vs : List String) : Option String :=
  match vs.findSome? (findColExact cols) with
  | some c => some c
  | none => vs.findSome? (findColSub cols)

/-- Entry `m[F]` of `normalize_header_map`: `find([f"[{F}]", F])`. -/
def hmap (cols : List String) (f : String) : Option String :=
  findCol cols [bracket f, f]

/-- `m["PRICE_COLS"] = [c for c in cols if "price" in c.lower()]`. -/
def PRICE_COLS (cols : List String) : List String :=
  cols.filter (fun c => containsSub (strLower c) "price")

/-- `m["LABEL_COLS"] = [c for c in cols if "LABEL_ACTIVE_YN" in c]`. -/
def LABEL_COLS (cols : List String) : List String :=
  cols.filter (fun c => containsSub c "LABEL_ACTIVE_YN")

/-- `m["PARAM_COLS"] = [c for c in cols if "PARAMETER" in c.upper()]`. -/
def PARAM_COLS (cols : List String) : List String :=
  cols.filter (fun c => containsSub (strUpper c) "PARAMETER")

/-- Fuzzy resolution of the caller's distinguishing-parameter name
(`build_variants` lines 125–127): keep it if empty or already a parameter
column, otherwise substitute the first parameter column containing it
case-insensitively (if none matches, the raw name is kept). -/
def resolveParam (cols : List String) (p : String) : String :=
  if p != "" && !((PARAM_COLS cols).contains p) then
    match (PARAM_COLS cols).filter
        (fun c => containsSub (strLower c) (strLower (strTrim p))) with
    | [] => p
    | m :: _ => m
  else p

/-- `vals = [str(v).strip() for v in df[pc].tolist() if str(v).strip() != ""]`:
the non-empty trimmed values of column `pc` over all rows. -/
def nonEmptyVals (df : Dataset) (pc : String) : List String :=
  (df.rows.map (fun r => strTrim (getVal r pc))).filter (fun s => s != "")

/-- `len(set(vals)) <= 1`: the common-parameter test of lines 129–133. -/
def isCommon (df : Dataset) (pc : String) : Bool :=
  decide ((nonEmptyVals df pc).dedup.length ≤ 1)

/-- `common_param_cols`: parameter columns whose non-empty values agree. -/
def common_params (df : Dataset) : List String :=
  (PARAM_COLS df.cols).filter (fun pc => isCommon df pc)

/-- The keys whose resolved columns are blanked on variants (line 137). -/
def main_only_keys : List String :=
  ["TITLE", "LONG_DESCRIPTION", "SHORT_DESCRIPTION", "SEO_URL", "SEO_TITLE",
   "SEO_DESCRIPTION", "MANUFACTURER", "AVAILABILITY", "AVAILABILITY_NOTE",
   "UNIT", "VAT", "CATEGORIES"]

/-- `main_only = [h.get(k) for k in (...)]` with unresolved entries dropped. -/
def main_only (cols : List String) : List String :=
  main_only_keys.filterMap (hmap cols)

/-- `ensure_col(df, col)`: add a blank column if `col` is truthy and absent. -/
def ensure_col (d : Dataset) (c : String) : Dataset :=
  if c ≠ "" ∧ c ∉ d.cols then
    ⟨d.cols ++ [c], d.rows.map (fun r => r ++ [(c, "")])⟩
  else d

/-- The flag keys ensured on lines 142–143. -/
def ensure_flag_keys : List String :=
  ["VARIANT_YN", "VARIANT_CODE", "MAIN_YN", "ACTIVE_YN", "ARCHIVED_YN",
   "CAN_ADD_TO_BASKET_YN", "IS_PRICES_WITH_VAT_YN"]

/-- The columns passed to `ensure_col` (lines 142–145), in loop order:
`h.get(k) or f"[{k}]"` for the flag keys, then label columns, then price
columns. -/
def ensure_targets (cols : List String) : List String :=
  ensure_flag_keys.map (fun k => (hmap cols k).getD (bracket k))
    ++ LABEL_COLS cols ++ PRICE_COLS cols

/-- The dataset after the `ensure_col` loops. -/
def ensureAll (df : Dataset) : Dataset :=
  (ensure_targets df.cols).foldl ensure_col df

/-- One of the image-list delimiter characters of `r"[;|,]\s*"`. -/
def isDelim (c : Char) : Bool :=
  c == ';' || c == '|' || c == ','

/-- Split a character list at every character satisfying `p`; always returns
at least one (possibly empty) fragment, like `re.split`. -/
def splitList (p : Char → Bool) : List Char → List (List Char)
  | [] => [[]]
  | c :: cs =>
    if p c then [] :: splitList p cs
    else
      match splitList p cs with
      | [] => [[c]]
      | f :: rest => (c :: f) :: rest

/-- `re.split(r"[;|,]\s*", s)` modelled as splitting on the delimiter
characters (see the header comment). -/
def splitRaw (s : String) : List String :=
  (splitList isDelim s.data).map String.mk

/-- The image tokens one raw cell value contributes to the merge loop:
skip falsy values, split `str(v).strip()`, strip each fragment, drop empties. -/
def tokensOf (v : String) : List String :=
  if v == "" then []
  else ((splitRaw (strTrim v)).map strTrim).filter (fun p => p != "")

/-- The `seen`/`out` loop of `merge_images_unique`: keep each token's first
occurrence (`seen` is the set of already-emitted tokens). -/
def mergeAux (seen : List String) : List String → List String
  | [] => []
  | p :: rest =>
    if p ∈ seen then mergeAux seen rest else p :: mergeAux (p :: seen) rest

/-- `merge_images_unique(values)` (lines 104–112): first-seen deduplicated
image tokens of all values, joined with `;`. -/
def merge_images_unique (values : List String) : String :=
  String.intercalate ";" (mergeAux [] ((values.map tokensOf).flatten))

/-- `first_image(value)` (lines 114–117): the stripped fragment before the
first delimiter, `""` for a falsy value. -/
def first_image (value : String) : String :=
  if value == "" then ""
  else
    match splitRaw (strTrim value) with
    | [] => ""
    | p :: _ => strTrim p

/-- `df.iloc[i]` for an integer `i`: pandas positional indexing, which accepts
negative positions `-len .. -1` counting from the end. -/
def ilocRow (rows : List Row) (i : Int) : Option Row :=
  if 0 ≤ i then rows.get? i.toNat
  else if i.natAbs ≤ rows.length then rows.get? (rows.length - i.natAbs)
  else none

/-- The MAIN record (lines 135–162): the template row with the parent code,
flag, language, EAN/stock/weight, distinguishing-parameter, title, image and
label overwrites applied in source order. `images` is the (already ensured)
image column of the whole dataset, `param_col` the resolved distinguishing
parameter. -/
def make_main (cols : List String) (images : List String)
    (pcCol param_col parent_code main_title : String) (base0 : Row) : Row :=
  let b := setVal base0 pcCol parent_code
  let b := setOpt b (hmap cols "LANGUAGE") "sk"
  let b := setOpt b (hmap cols "VARIANT_YN") "0"
  let b := setOpt b (hmap cols "VARIANT_CODE") ""
  let b := setOpt b (hmap cols "MAIN_YN") ""
  let b := setOpt b (hmap cols "ACTIVE_YN") "1"
  let b := setOpt b (hmap cols "ARCHIVED_YN") "0"
  let b := setOpt b (hmap cols "CAN_ADD_TO_BASKET_YN") "1"
  let b := setOpt b (hmap cols "IS_PRICES_WITH_VAT_YN") "1"
  let b := setOpt b (hmap cols "EAN") ""
  let b := setOpt b (hmap cols "STOCK") ""
  let b := setOpt b (hmap cols "WEIGHT") ""
  let b := if param_col ≠ "" then setVal b param_col "" else b
  let b := if main_title ≠ "" then setOpt b (hmap cols "TITLE") main_title else b
  let b := setOpt b (hmap cols "IMAGES") (merge_images_unique images)
  (LABEL_COLS cols).foldl (fun a c => setVal a c "0") b

/-- One variant record (lines 166–186): the original code is captured first,
then the overwrites are applied in source order; `common` and `mo` are the
common-parameter and main-only column lists. -/
def make_variant (cols : List String) (common mo : List String)
    (pcCol parent_code : String) (r : Row) : Row :=
  let orig_code := getVal r pcCol
  let v := setVal r pcCol parent_code
  let v := setOpt v (hmap cols "VARIANT_YN") "1"
  let v := setOpt v (hmap cols "VARIANT_CODE") orig_code
  let v := setOpt v (hmap cols "MAIN_YN") "0"
  let v := setOpt v (hmap cols "ACTIVE_YN") "1"
  let v := setOpt v (hmap cols "ARCHIVED_YN") ""
  let v := setOpt v (hmap cols "CAN_ADD_TO_BASKET_YN") ""
  let v := setOpt v (hmap cols "IS_PRICES_WITH_VAT_YN") "1"
  let v := mo.foldl (fun a c => setVal a c "") v
  let v := common.foldl (fun a c => setVal a c "") v
  let v := setOpt v (hmap cols "IMAGES")
    (first_image (getVal r ((hmap cols "IMAGES").getD "")))
  (LABEL_COLS cols).foldl (fun a c => setVal a c "0") v

/-- The image-column values merged for MAIN (line 161), read from the ensured
dataset like the source does. -/
def imagesOf (df : Dataset) : List String :=
  match hmap df.cols "IMAGES" with
  | some ic => (ensureAll df).rows.map (fun r => getVal r ic)
  | none => []

/-- The two fatal failures of `build_variants`: the `RuntimeError` for an
unresolvable `[PRODUCT_CODE]` header and the pandas `IndexError` for an
out-of-range `df.iloc[template_index]`. -/
inductive BuildError
  | missingProductCode
  | templateIndexOutOfRange
deriving DecidableEq

/-- `build_variants(df, param_col, parent_code, main_title, template_index)`
(lines 119–190). The header check comes first, then the template row is
selected; the output projects the MAIN row and the per-row variants (built
over the ensured dataset) back onto the original column list. -/
def build_variants (df : Dataset) (param_col parent_code main_title : String)
    (template_index : Int) : Except BuildError Dataset :=
  match hmap df.cols "PRODUCT_CODE" with
  | none => Except.error BuildError.missingProductCode
  | some pcCol =>
    match ilocRow df.rows template_index with
    | none => Except.error BuildError.templateIndexOutOfRange
    | some base0 =>
      Except.ok ⟨df.cols,
        (make_main df.cols (imagesOf df) pcCol (resolveParam df.cols param_col)
            parent_code main_title base0
          :: (ensureAll df).rows.map
              (make_variant df.cols (common_params df) (main_only df.cols)
                pcCol parent_code)).map (projectRow df.cols)⟩

/-- Rows of a successful transform (`[]` on failure). -/
def okRows : Except BuildError Dataset → List Row
  | Except.ok d => d.rows
  | Except.error _ => []

/-- Columns of a successful transform (`[]` on failure). -/
def okCols : Except BuildError Dataset → List String
  | Except.ok d => d.cols
  | Except.error _ => []

/-- Whether the transform produced an output dataset. -/
def isOk : Except BuildError Dataset → Bool
  | Except.ok _ => true
  | Except.error _ => false

/-- Reference definition following the spec's words: deduplicate a token list
preserving first-seen order (keep each element's first occurrence). Used to
compare the code's `seen`/`out` loop against the specified behaviour. -/
def dedupFirst : List String → List String
  | [] => []
  | a :: l => a :: dedupFirst (l.filter (fun b => decide (b ≠ a)))
termination_by l => l.length
decreasing_by
  simp only [List.length_cons]
  exact Nat.lt_succ_of_le (List.length_filter_le _ _)

/-- Reference definition following the spec's words for `first`: split on the
delimiter pattern and return the first non-empty trimmed fragment, or `""` if
there is none. Compared against the code's `first_image`. -/
def firstNonEmptySpec (value : String) : String :=
  (((splitRaw (strTrim value)).map strTrim).filter (fun p => p != "")).headD ""

/-- The ways a column name can match the shared product-code role (claim C8):
an exact case-insensitive match of `[PRODUCT_CODE]` or `PRODUCT_CODE`, or a
substring match of either, exactly as the two passes of `find` test them. -/
def productCodeMatch (c : String) : Prop :=
  (strLower (strTrim c) == strLower (bracket "PRODUCT_CODE")) = true
  ∨ (strLower (strTrim c) == strLower "PRODUCT_CODE") = true
  ∨ containsSub (strLower (strTrim c)) (strLower (bracket "PRODUCT_CODE")) = true
  ∨ containsSub (strLower (strTrim c)) (strLower "PRODUCT_CODE") = true

instance productCodeMatch.decidable (c : String) :
    Decidable (productCodeMatch c) := by
  unfold productCodeMatch
  infer_instance

/-- The single-valued keys the MAIN synthesizer overwrites after the language
assignment (lines 149–160 of the source), in write order. -/
def mainTailKeys : List String :=
  ["VARIANT_YN", "VARIANT_CODE", "MAIN_YN", "ACTIVE_YN", "ARCHIVED_YN",
   "CAN_ADD_TO_BASKET_YN", "IS_PRICES_WITH_VAT_YN", "EAN", "STOCK", "WEIGHT",
   "TITLE"]

/-- All single-valued keys the MAIN synthesizer overwrites (lines 148–160). -/
def mainKeys : List String := "LANGUAGE" :: mainTailKeys

/-- The single-valued keys the MAIN synthesizer writes after its
`VARIANT_CODE` assignment. -/
def mainPostVCKeys : List String :=
  ["MAIN_YN", "ACTIVE_YN", "ARCHIVED_YN", "CAN_ADD_TO_BASKET_YN",
   "IS_PRICES_WITH_VAT_YN", "EAN", "STOCK", "WEIGHT", "TITLE"]

/-- The single-valued flag keys the variant synthesizer overwrites
(lines 171–177). -/
def varKeys : List String :=
  ["VARIANT_YN", "VARIANT_CODE", "MAIN_YN", "ACTIVE_YN", "ARCHIVED_YN",
   "CAN_ADD_TO_BASKET_YN", "IS_PRICES_WITH_VAT_YN"]

/-- The single-valued flag keys the variant synthesizer writes after its
`VARIANT_CODE` assignment. -/
def varPostVCKeys : List String :=
  ["MAIN_YN", "ACTIVE_YN", "ARCHIVED_YN", "CAN_ADD_TO_BASKET_YN",
   "IS_PRICES_WITH_VAT_YN"]

/-- Column `x` is not the resolved target of any of the given header keys.
The aliasing provisos of the amended claims are phrased with this: substring
header resolution allows one physical column to serve several roles, and the
claims hold when the roles involved resolve to pairwise distinct columns. -/
def HmapAvoids (cols : List String) (keys : List String) (x : String) : Prop :=
  ∀ k ∈ keys, hmap cols k ≠ some x

/-- Column `x` is not hit by the two trailing write groups shared by MAIN and
variants: the image assignment and the label-column loop. -/
def AvoidsTail (cols : List String) (x : String) : Prop :=
  hmap cols "IMAGES" ≠ some x ∧ x ∉ LABEL_COLS cols

instance HmapAvoids.decidable (cols keys : List String) (x : String) :
    Decidable (HmapAvoids cols keys x) := by
  unfold HmapAvoids
  infer_instance

instance AvoidsTail.decidable (cols : List String) (x : String) :
    Decidable (AvoidsTail cols x) := by
  unfold AvoidsTail
  infer_instance

/-- The spec's "set of distinct non-empty trimmed values across all input
rows" for a column. -/
def distinctNonEmpty (df : Dataset) (pc : String) : Finset String :=
  ((df.rows.map (fun r => strTrim (getVal r pc))).filter (fun s => s != "")).toFinset

/-! ### Support lemmas about rows and assignments -/

theorem getVal_setVal (r : Row) (c v x : String) :
    getVal (setVal r c v) x = if c = x then v else getVal r x := by
  induction r with
  | nil => by_cases hx : c = x <;> simp [setVal, getVal, hx]
  | cons p r ih =>
    by_cases h : p.1 = c <;> by_cases hx : c = x <;>
      simp_all [setVal, getVal]

theorem getVal_setOpt (r : Row) (c : Option String) (v x : String) :
    getVal (setOpt r c v) x = if c = some x then v else getVal r x := by
  cases c with
  | none => simp [setOpt]
  | some cc => by_cases h : cc = x <;> simp [setOpt, getVal_setVal, h]

theorem getVal_foldl_set (L : List String) (r : Row) (w x : String) :
    getVal (L.foldl (fun a c => setVal a c w) r) x
      = if x ∈ L then w else getVal r x := by
  induction L generalizing r with
  | nil => simp
  | cons a L ih =>
    simp only [List.foldl_cons, ih, getVal_setVal]
    by_cases ha : a = x
    · by_cases hm : x ∈ L <;> simp [ha, hm, List.mem_cons]
    · have hx : ¬(x = a) := fun hh => ha hh.symm
      by_cases hm : x ∈ L <;> simp [ha, hx, hm, List.mem_cons]

theorem getVal_append_single (r : Row) (c x : String) :
    getVal (r ++ [(c, "")]) x = getVal r x := by
  induction r with
  | nil => simp [getVal]
  | cons p r ih => by_cases h : p.1 = x <;> simp [getVal, h, ih]

theorem getVal_projectRow (cols : List String) (r : Row) (x : String) :
    getVal (projectRow cols r) x = if x ∈ cols then getVal r x else "" := by
  induction cols with
  | nil => simp [projectRow, getVal]
  | cons c cs ih =>
    by_cases h : c = x
    · simp [projectRow, getVal, h, List.mem_cons]
    · have hx : ¬(x = c) := fun hh => h hh.symm
      simp only [projectRow] at ih
      simp [projectRow, getVal, h, hx, ih, List.mem_cons]

theorem projectRow_fst (cols : List String) (r : Row) :
    (projectRow cols r).map Prod.fst = cols := by
  simp [projectRow, List.map_map, Function.comp_def]

/-! ### Support lemmas about header resolution -/

theorem mem_of_hmap {cols : List String} {f c : String}
    (h : hmap cols f = some c) : c ∈ cols := by
  unfold hmap findCol at h
  cases he : List.findSome? (findColExact cols) [bracket f, f] with
  | some c0 =>
    rw [he] at h
    obtain ⟨v, _, hfind⟩ := List.exists_of_findSome?_eq_some he
    cases h
    exact List.mem_of_find?_eq_some hfind
  | none =>
    rw [he] at h
    obtain ⟨v, _, hfind⟩ := List.exists_of_findSome?_eq_some h
    exact List.mem_of_find?_eq_some hfind

theorem mem_of_param_col {cols : List String} {c : String}
    (h : c ∈ PARAM_COLS cols) : c ∈ cols :=
  List.mem_of_mem_filter h

theorem mem_of_common {df : Dataset} {c : String}
    (h : c ∈ common_params df) : c ∈ df.cols :=
  mem_of_param_col (List.mem_of_mem_filter h)

/-! ### Support lemmas about the `ensure_col` loops -/

theorem ensure_col_getVal (d : Dataset) (c x : String) :
    (ensure_col d c).rows.map (fun r => getVal r x)
      = d.rows.map (fun r => getVal r x) := by
  unfold ensure_col
  split
  · simp [List.map_map, Function.comp_def, getVal_append_single]
  · rfl

theorem ensure_col_length (d : Dataset) (c : String) :
    (ensure_col d c).rows.length = d.rows.length := by
  unfold ensure_col
  split <;> simp

theorem foldl_ensure_getVal (L : List String) (d : Dataset) (x : String) :
    ((L.foldl ensure_col d).rows.map (fun r => getVal r x))
      = d.rows.map (fun r => getVal r x) := by
  induction L generalizing d with
  | nil => rfl
  | cons a L ih => simp only [List.foldl_cons]; rw [ih, ensure_col_getVal]

theorem foldl_ensure_length (L : List String) (d : Dataset) :
    (L.foldl ensure_col d).rows.length = d.rows.length := by
  induction L generalizing d with
  | nil => rfl
  | cons a L ih => simp only [List.foldl_cons]; rw [ih, ensure_col_length]

theorem ensureAll_getVal (df : Dataset) (x : String) :
    ((ensureAll df).rows.map (fun r => getVal r x))
      = df.rows.map (fun r => getVal r x) :=
  foldl_ensure_getVal _ _ _

theorem ensureAll_length (df : Dataset) :
    (ensureAll df).rows.length = df.rows.length :=
  foldl_ensure_length _ _

theorem ensure_rowIx_getVal (df : Dataset) (x : String) (i : Nat) :
    getVal (rowIx (ensureAll df).rows i) x = getVal (rowIx df.rows i) x := by
  have h0 : ((ensureAll df).rows.map (fun r => getVal r x))[i]?
      = (df.rows.map (fun r => getVal r x))[i]? := by
    rw [ensureAll_getVal]
  rw [List.getElem?_map, List.getElem?_map] at h0
  unfold rowIx
  rw [List.getD_eq_getElem?_getD, List.getD_eq_getElem?_getD]
  cases h1 : (ensureAll df).rows[i]? with
  | none =>
    cases h2 : df.rows[i]? with
    | none => simp
    | some b => rw [h1, h2] at h0; simp at h0
  | some a =>
    cases h2 : df.rows[i]? with
    | none => rw [h1, h2] at h0; simp at h0
    | some b => rw [h1, h2] at h0; simp at h0; simp [h0]

/-! ### Unfolding a successful `build_variants` run -/

theorem build_variants_ok (df : Dataset) (p pc mt : String) (ti : Int)
    (pcCol : String) (base0 : Row)
    (hpc : hmap df.cols "PRODUCT_CODE" = some pcCol)
    (hb : ilocRow df.rows ti = some base0) :
    build_variants df p pc mt ti = Except.ok ⟨df.cols,
      (make_main df.cols (imagesOf df) pcCol (resolveParam df.cols p) pc mt base0
        :: (ensureAll df).rows.map
            (make_variant df.cols (common_params df) (main_only df.cols) pcCol pc)
        ).map (projectRow df.cols)⟩ := by
  unfold build_variants
  rw [hpc, hb]

theorem okRows_build (df : Dataset) (p pc mt : String) (ti : Int)
    (pcCol : String) (base0 : Row)
    (hpc : hmap df.cols "PRODUCT_CODE" = some pcCol)
    (hb : ilocRow df.rows ti = some base0) :
    okRows (build_variants df p pc mt ti)
      = projectRow df.cols
          (make_main df.cols (imagesOf df) pcCol (resolveParam df.cols p) pc mt base0)
        :: (ensureAll df).rows.map (fun r => projectRow df.cols
            (make_variant df.cols (common_params df) (main_only df.cols) pcCol pc r)) := by
  rw [build_variants_ok df p pc mt ti pcCol base0 hpc hb]
  simp [okRows, List.map_map, Function.comp_def]

theorem okCols_build (df : Dataset) (p pc mt : String) (ti : Int)
    (pcCol : String) (base0 : Row)
    (hpc : hmap df.cols "PRODUCT_CODE" = some pcCol)
    (hb : ilocRow df.rows ti = some base0) :
    okCols (build_variants df p pc mt ti) = df.cols := by
  rw [build_variants_ok df p pc mt ti pcCol base0 hpc hb]
  rfl

/-! ### Values of the synthesized MAIN row -/

theorem make_main_code (cols images : List String)
    (pcCol param parent mt : String) (base0 : Row)
    (hk : HmapAvoids cols mainKeys pcCol) (hp : param ≠ pcCol)
    (hav : AvoidsTail cols pcCol) :
    getVal (make_main cols images pcCol param parent mt base0) pcCol = parent := by
  obtain ⟨him, hlab⟩ := hav
  simp only [HmapAvoids, mainKeys, mainTailKeys, List.forall_mem_cons,
    List.forall_mem_singleton] at hk
  obtain ⟨h1, h2, h3, h4, h5, h6, h7, h8, h9, h10, h11, h12, -⟩ := hk
  by_cases hpe : param = "" <;> by_cases hme : mt = "" <;>
    simp [make_main, getVal_foldl_set, getVal_setOpt, getVal_setVal,
      h1, h2, h3, h4, h5, h6, h7, h8, h9, h10, h11, h12, him, hlab, hp, hpe, hme]

theorem make_main_untouched (cols images : List String)
    (pcCol param parent mt x : String) (base0 : Row)
    (h0 : pcCol ≠ x)
    (hk : HmapAvoids cols mainKeys x) (hp : param ≠ x)
    (hav : AvoidsTail cols x) :
    getVal (make_main cols images pcCol param parent mt base0) x
      = getVal base0 x := by
  obtain ⟨him, hlab⟩ := hav
  simp only [HmapAvoids, mainKeys, mainTailKeys, List.forall_mem_cons,
    List.forall_mem_singleton] at hk
  obtain ⟨h1, h2, h3, h4, h5, h6, h7, h8, h9, h10, h11, h12, -⟩ := hk
  by_cases hpe : param = "" <;> by_cases hme : mt = "" <;>
    simp [make_main, getVal_foldl_set, getVal_setOpt, getVal_setVal,
      h0, h1, h2, h3, h4, h5, h6, h7, h8, h9, h10, h11, h12, him, hlab, hp, hpe, hme]

theorem make_main_vc (cols images : List String)
    (pcCol param parent mt vc : String) (base0 : Row)
    (hvc : hmap cols "VARIANT_CODE" = some vc)
    (hk : HmapAvoids cols mainPostVCKeys vc) (hp : param ≠ vc)
    (hav : AvoidsTail cols vc) :
    getVal (make_main cols images pcCol param parent mt base0) vc = "" := by
  obtain ⟨him, hlab⟩ := hav
  simp only [HmapAvoids, mainPostVCKeys, List.forall_mem_cons,
    List.forall_mem_singleton] at hk
  obtain ⟨h4, h5, h6, h7, h8, h9, h10, h11, h12, -⟩ := hk
  by_cases hpe : param = "" <;> by_cases hme : mt = "" <;>
    simp [make_main, getVal_foldl_set, getVal_setOpt, getVal_setVal,
      hvc, h4, h5, h6, h7, h8, h9, h10, h11, h12, him, hlab, hp, hpe, hme]

theorem make_main_lang (cols images : List String)
    (pcCol param parent mt lc : String) (base0 : Row)
    (hl : hmap cols "LANGUAGE" = some lc)
    (hk : HmapAvoids cols mainTailKeys lc) (hp : param ≠ lc)
    (hav : AvoidsTail cols lc) :
    getVal (make_main cols images pcCol param parent mt base0) lc = "sk" := by
  obtain ⟨him, hlab⟩ := hav
  simp only [HmapAvoids, mainTailKeys, List.forall_mem_cons,
    List.forall_mem_singleton] at hk
  obtain ⟨h2, h3, h4, h5, h6, h7, h8, h9, h10, h11, h12, -⟩ := hk
  by_cases hpe : param = "" <;> by_cases hme : mt = "" <;>
    simp [make_main, getVal_foldl_set, getVal_setOpt, getVal_setVal,
      hl, h2, h3, h4, h5, h6, h7, h8, h9, h10, h11, h12, him, hlab, hp, hpe, hme]

theorem make_main_param (cols images : List String)
    (pcCol param parent mt : String) (base0 : Row)
    (hpe : param ≠ "")
    (ht : hmap cols "TITLE" ≠ some param)
    (hav : AvoidsTail cols param) :
    getVal (make_main cols images pcCol param parent mt base0) param = "" := by
  obtain ⟨him, hlab⟩ := hav
  by_cases hme : mt = "" <;>
    simp [make_main, getVal_foldl_set, getVal_setOpt, getVal_setVal,
      ht, him, hlab, hpe, hme]

theorem make_main_images (cols images : List String)
    (pcCol param parent mt ic : String) (base0 : Row)
    (hi : hmap cols "IMAGES" = some ic)
    (hlab : ic ∉ LABEL_COLS cols) :
    getVal (make_main cols images pcCol param parent mt base0) ic
      = merge_images_unique images := by
  by_cases hpe : param = "" <;> by_cases hme : mt = "" <;>
    simp [make_main, getVal_foldl_set, getVal_setOpt, getVal_setVal,
      hi, hlab, hpe, hme]

/-! ### Values of a synthesized variant row -/

theorem make_variant_code (cols common mo : List String)
    (pcCol parent : String) (r : Row)
    (hk : HmapAvoids cols varKeys pcCol)
    (hmo : pcCol ∉ mo) (hcm : pcCol ∉ common)
    (hav : AvoidsTail cols pcCol) :
    getVal (make_variant cols common mo pcCol parent r) pcCol = parent := by
  obtain ⟨him, hlab⟩ := hav
  simp only [HmapAvoids, varKeys, List.forall_mem_cons,
    List.forall_mem_singleton] at hk
  obtain ⟨h1, h2, h3, h4, h5, h6, h7⟩ := hk
  simp [make_variant, getVal_foldl_set, getVal_setOpt, getVal_setVal,
    h1, h2, h3, h4, h5, h6, h7, hmo, hcm, him, hlab]

theorem make_variant_vc (cols common mo : List String)
    (pcCol parent vc : String) (r : Row)
    (hvc : hmap cols "VARIANT_CODE" = some vc)
    (hk : HmapAvoids cols varPostVCKeys vc)
    (hmo : vc ∉ mo) (hcm : vc ∉ common)
    (hav : AvoidsTail cols vc) :
    getVal (make_variant cols common mo pcCol parent r) vc = getVal r pcCol := by
  obtain ⟨him, hlab⟩ := hav
  simp only [HmapAvoids, varPostVCKeys, List.forall_mem_cons,
    List.forall_mem_singleton] at hk
  obtain ⟨h3, h4, h5, h6, h7⟩ := hk
  simp [make_variant, getVal_foldl_set, getVal_setOpt, getVal_setVal,
    hvc, h3, h4, h5, h6, h7, hmo, hcm, him, hlab]

theorem make_variant_untouched (cols common mo : List String)
    (pcCol parent x : String) (r : Row)
    (h0 : pcCol ≠ x)
    (hk : HmapAvoids cols varKeys x)
    (hmo : x ∉ mo) (hcm : x ∉ common)
    (hav : AvoidsTail cols x) :
    getVal (make_variant cols common mo pcCol parent r) x = getVal r x := by
  obtain ⟨him, hlab⟩ := hav
  simp only [HmapAvoids, varKeys, List.forall_mem_cons,
    List.forall_mem_singleton] at hk
  obtain ⟨h1, h2, h3, h4, h5, h6, h7⟩ := hk
  simp [make_variant, getVal_foldl_set, getVal_setOpt, getVal_setVal,
    h0, h1, h2, h3, h4, h5, h6, h7, hmo, hcm, him, hlab]

theorem make_variant_common (cols common mo : List String)
    (pcCol parent c : String) (r : Row)
    (hc : c ∈ common)
    (hav : AvoidsTail cols c) :
    getVal (make_variant cols common mo pcCol parent r) c = "" := by
  obtain ⟨him, hlab⟩ := hav
  simp [make_variant, getVal_foldl_set, getVal_setOpt, getVal_setVal,
    hc, him, hlab]

theorem make_variant_images (cols common mo : List String)
    (pcCol parent ic : String) (r : Row)
    (hi : hmap cols "IMAGES" = some ic)
    (hlab : ic ∉ LABEL_COLS cols) :
    getVal (make_variant cols common mo pcCol parent r) ic
      = first_image (getVal r ic) := by
  simp [make_variant, getVal_foldl_set, getVal_setOpt, getVal_setVal, hi, hlab]

/-! ### The merge loop implements first-seen deduplication -/

theorem mergeAux_eq_dedupFirst (l : List String) :
    ∀ seen, mergeAux seen l
      = dedupFirst (l.filter (fun b => decide (b ∉ seen))) := by
  induction l with
  | nil => intro seen; simp [mergeAux, dedupFirst]
  | cons p rest ih =>
    intro seen
    by_cases hp : p ∈ seen
    · simp only [mergeAux, if_pos hp, ih seen, List.filter_cons]
      simp [hp]
    · simp only [mergeAux, if_neg hp, ih (p :: seen), List.filter_cons]
      have hfil : (rest.filter (fun b => decide (b ∉ seen))).filter
            (fun b => decide (b ≠ p))
          = rest.filter (fun b => decide (b ∉ p :: seen)) := by
        rw [List.filter_filter]
        apply List.filter_congr
        intro b _
        by_cases h1 : b = p <;> by_cases h2 : b ∈ seen <;> simp [h1, h2]
      simp [hp, dedupFirst, hfil]

theorem merge_images_unique_spec (values : List String) :
    merge_images_unique values
      = String.intercalate ";" (dedupFirst ((values.map tokensOf).flatten)) := by
  unfold merge_images_unique
  rw [mergeAux_eq_dedupFirst]
  have hf : ((values.map tokensOf).flatten).filter
      (fun b => decide (b ∉ ([] : List String)))
      = (values.map tokensOf).flatten := by
    apply List.filter_eq_self.mpr
    intro a _
    simp
  rw [hf]

/-! ### `first_image` returns the (possibly empty) first fragment -/

theorem first_image_frag (v : String) :
    first_image v = strTrim ((splitRaw (strTrim v)).headD "") := by
  by_cases hv : v = ""
  · subst hv; rfl
  · have hbe : (v == "") = false := by simp [hv]
    cases h : splitRaw (strTrim v) with
    | nil => simp [first_image, hbe, h]; decide
    | cons a as => simp [first_image, hbe, h]

theorem first_image_spec_agree (v : String)
    (h : strTrim ((splitRaw (strTrim v)).headD "") ≠ "") :
    first_image v = firstNonEmptySpec v := by
  by_cases hv : v = ""
  · subst hv
    exact absurd (by decide) h
  · cases hsp : splitRaw (strTrim v) with
    | nil => rw [hsp] at h; exact absurd (by decide) h
    | cons a as =>
      rw [hsp] at h
      simp only [List.headD_cons] at h
      simp [first_image, firstNonEmptySpec, hv, hsp, h]

/-! ### Indexing helpers -/

theorem rowIx_map (f : Row → Row) (l : List Row) (i : Nat) (hi : i < l.length) :
    rowIx (l.map f) i = f (rowIx l i) := by
  unfold rowIx
  rw [List.getD_eq_getElem?_getD, List.getD_eq_getElem?_getD, List.getElem?_map,
    List.getElem?_eq_getElem hi]
  simp

theorem ilocRow_none (rows : List Row) (ti : Int)
    (h : ti < -(rows.length : Int) ∨ (rows.length : Int) ≤ ti) :
    ilocRow rows ti = none := by
  unfold ilocRow
  rcases h with h | h
  · have h0 : ¬(0 ≤ ti) := by omega
    rw [if_neg h0, if_neg (by omega : ¬(ti.natAbs ≤ rows.length))]
  · rw [if_pos (by omega : (0 : Int) ≤ ti)]
    exact List.get?_eq_none.mpr (by omega)

theorem rowIx_zero (a : Row) (l : List Row) : rowIx (a :: l) 0 = a := by
  simp [rowIx]

theorem rowIx_succ (a : Row) (l : List Row) (i : Nat) :
    rowIx (a :: l) (i + 1) = rowIx l i := by
  simp [rowIx]

theorem param_col_ne_empty {cols : List String} {c : String}
    (h : c ∈ PARAM_COLS cols) : c ≠ "" := by
  intro he
  subst he
  have hp := List.of_mem_filter h
  exact absurd hp (by decide)

theorem common_iff (df : Dataset) (c : String) (hc : c ∈ PARAM_COLS df.cols) :
    c ∈ common_params df ↔ (distinctNonEmpty df c).card ≤ 1 := by
  have hdist : (distinctNonEmpty df c).card = (nonEmptyVals df c).dedup.length := by
    unfold distinctNonEmpty nonEmptyVals
    exact List.card_toFinset _
  unfold common_params
  rw [List.mem_filter, hdist]
  simp [isCommon, hc]

/-! ### Claims C6–C9 -/

/-- C6: for every input dataset on which the transform succeeds (the shared
product-code column resolves to `pcCol` and the template index selects a row),
the output has exactly one more row than the input: the synthesized MAIN record
is row 0 and it is followed by one variant row per input row, in the original
input row order (the ensured dataset the variants are built over has exactly
the input's rows). -/
theorem C6_row_count (df : Dataset) (p pc mt : String) (ti : Int)
    (pcCol : String) (base0 : Row)
    (hpc : hmap df.cols "PRODUCT_CODE" = some pcCol)
    (hb : ilocRow df.rows ti = some base0) :
    (okRows (build_variants df p pc mt ti)).length = df.rows.length + 1
    ∧ okRows (build_variants df p pc mt ti)
        = projectRow df.cols (make_main df.cols (imagesOf df) pcCol
            (resolveParam df.cols p) pc mt base0)
          :: (ensureAll df).rows.map (fun r => projectRow df.cols
              (make_variant df.cols (common_params df) (main_only df.cols) pcCol pc r))
    ∧ (ensureAll df).rows.length = df.rows.length := by
  have h := okRows_build df p pc mt ti pcCol base0 hpc hb
  refine ⟨?_, h, ensureAll_length df⟩
  rw [h]
  simp [ensureAll_length]

/-- C6 witness: a concrete two-row dataset produces a three-row output. -/
theorem C6_row_count_witness :
    (okRows (build_variants
      ⟨["[PRODUCT_CODE]"], [[("[PRODUCT_CODE]", "A")], [("[PRODUCT_CODE]", "B")]]⟩
      "" "P" "" 0)).length = 3 :=
  (C6_row_count
    ⟨["[PRODUCT_CODE]"], [[("[PRODUCT_CODE]", "A")], [("[PRODUCT_CODE]", "B")]]⟩
    "" "P" "" 0 "[PRODUCT_CODE]" [("[PRODUCT_CODE]", "A")]
    (by decide) (by decide)).1

/-- C7: on success, the output dataset's column list is exactly the input's
column list, and every output row (MAIN and every variant) carries exactly
those columns in that order — the columns added internally by the
`ensure_col` step are dropped by the final projection and no input column is
lost. (All values are strings by the typing of the model.) -/
theorem C7_columns (df : Dataset) (p pc mt : String) (ti : Int)
    (pcCol : String) (base0 : Row)
    (hpc : hmap df.cols "PRODUCT_CODE" = some pcCol)
    (hb : ilocRow df.rows ti = some base0) :
    okCols (build_variants df p pc mt ti) = df.cols
    ∧ ∀ r ∈ okRows (build_variants df p pc mt ti), r.map Prod.fst = df.cols := by
  refine ⟨okCols_build df p pc mt ti pcCol base0 hpc hb, ?_⟩
  rw [okRows_build df p pc mt ti pcCol base0 hpc hb]
  intro r hr
  simp only [List.mem_cons, List.mem_map] at hr
  rcases hr with rfl | ⟨a, -, rfl⟩ <;> exact projectRow_fst _ _

/-- C7 witness: on a concrete dataset the output keeps the input's column
list. -/
theorem C7_columns_witness :
    okCols (build_variants
      ⟨["[PRODUCT_CODE]", "[TITLE]"],
       [[("[PRODUCT_CODE]", "A"), ("[TITLE]", "t")]]⟩
      "" "P" "" 0) = ["[PRODUCT_CODE]", "[TITLE]"] :=
  (C7_columns
    ⟨["[PRODUCT_CODE]", "[TITLE]"],
     [[("[PRODUCT_CODE]", "A"), ("[TITLE]", "t")]]⟩
    "" "P" "" 0 "[PRODUCT_CODE]" [("[PRODUCT_CODE]", "A"), ("[TITLE]", "t")]
    (by decide) (by decide)).1

/-- C8: if no input column matches the shared product-code role — neither an
exact case-insensitive match of `[PRODUCT_CODE]`/`PRODUCT_CODE` nor a
substring match of either — the transform fails with the missing-column error
before any row-level transformation, producing no (partial) output dataset. -/
theorem C8_missing_code (df : Dataset) (p pc mt : String) (ti : Int)
    (h : ∀ c ∈ df.cols, ¬ productCodeMatch c) :
    build_variants df p pc mt ti = Except.error BuildError.missingProductCode := by
  have hs : ∀ c ∈ df.cols,
      (strLower (strTrim c) == strLower (bracket "PRODUCT_CODE")) = false
      ∧ (strLower (strTrim c) == strLower "PRODUCT_CODE") = false
      ∧ containsSub (strLower (strTrim c)) (strLower (bracket "PRODUCT_CODE")) = false
      ∧ containsSub (strLower (strTrim c)) (strLower "PRODUCT_CODE") = false := by
    intro c hc
    have hcm := h c hc
    simp only [productCodeMatch, not_or, Bool.not_eq_true] at hcm
    exact hcm
  have e1 : findColExact df.cols (bracket "PRODUCT_CODE") = none :=
    List.find?_eq_none.mpr (fun c hc => by simp [(hs c hc).1])
  have e2 : findColExact df.cols "PRODUCT_CODE" = none :=
    List.find?_eq_none.mpr (fun c hc => by simp [(hs c hc).2.1])
  have s1 : findColSub df.cols (bracket "PRODUCT_CODE") = none :=
    List.find?_eq_none.mpr (fun c hc => by simp [(hs c hc).2.2.1])
  have s2 : findColSub df.cols "PRODUCT_CODE" = none :=
    List.find?_eq_none.mpr (fun c hc => by simp [(hs c hc).2.2.2])
  have hn : hmap df.cols "PRODUCT_CODE" = none := by
    unfold hmap findCol
    rw [List.findSome?_cons]
    rw [e1]
    rw [List.findSome?_cons]
    rw [e2]
    simp only [List.findSome?_nil]
    rw [List.findSome?_cons]
    rw [s1]
    rw [List.findSome?_cons]
    rw [s2]
    rfl
  unfold build_variants
  rw [hn]

/-- C8 witness: a dataset whose single column is unrelated to the product-code
role fails with the missing-column error. -/
theorem C8_missing_code_witness :
    build_variants ⟨["FOO"], [[("FOO", "1")]]⟩ "" "P" "" 0
      = Except.error BuildError.missingProductCode :=
  C8_missing_code ⟨["FOO"], [[("FOO", "1")]]⟩ "" "P" "" 0 (by decide)

/-- C9 counterexample: with one input row, the caller-supplied template index
`-1` is not a valid row index in `0..N-1` (it is negative), yet the transform
succeeds — pandas `iloc` accepts negative positions counting from the end —
refuting the claim that such indices fail fatally. -/
theorem C9_counterexample :
    isOk (build_variants ⟨["[PRODUCT_CODE]"], [[("[PRODUCT_CODE]", "A")]]⟩
      "" "P" "" (-1)) = true := by decide

/-- C9 amended: with the shared-code column resolved, the transform fails
fatally — producing no output dataset — for every template index outside
`-N..N-1` (pandas positional indexing): indices `≥ N` or `< -N` abort with the
index error before any output is built, while negative indices in `-N..-1`
select the template row from the end and succeed. -/
theorem C9_template_index (df : Dataset) (p pc mt : String) (ti : Int)
    (pcCol : String)
    (hpc : hmap df.cols "PRODUCT_CODE" = some pcCol)
    (hrange : ti < -(df.rows.length : Int) ∨ (df.rows.length : Int) ≤ ti) :
    build_variants df p pc mt ti
      = Except.error BuildError.templateIndexOutOfRange := by
  have hi := ilocRow_none df.rows ti hrange
  unfold build_variants
  rw [hpc, hi]

/-- C9 witness: index 5 on a one-row dataset aborts with the index error. -/
theorem C9_template_index_witness :
    build_variants ⟨["[PRODUCT_CODE]"], [[("[PRODUCT_CODE]", "A")]]⟩
      "" "P" "" 5 = Except.error BuildError.templateIndexOutOfRange :=
  C9_template_index ⟨["[PRODUCT_CODE]"], [[("[PRODUCT_CODE]", "A")]]⟩
    "" "P" "" 5 "[PRODUCT_CODE]" (by decide) (by decide)

/-! ### Claims C4 and C5 -/

/-- C4 counterexample: a dataset whose image column also matches the label
marker resolves, but the MAIN row's image column holds the forced label value
`"0"` instead of the merged image list — the label loop runs after the image
assignment — so the claim's universal form fails. -/
theorem C4_counterexample :
    hmap ["[PRODUCT_CODE]", "IMAGES LABEL_ACTIVE_YN"] "IMAGES"
        = some "IMAGES LABEL_ACTIVE_YN"
    ∧ merge_images_unique ["img1"] = "img1"
    ∧ getVal (rowIx (okRows (build_variants
        ⟨["[PRODUCT_CODE]", "IMAGES LABEL_ACTIVE_YN"],
         [[("[PRODUCT_CODE]", "A"), ("IMAGES LABEL_ACTIVE_YN", "img1")]]⟩
        "" "P" "" 0)) 0) "IMAGES LABEL_ACTIVE_YN" = "0"
    ∧ ("0" : String) ≠ "img1" := by
  refine ⟨by decide, by decide, by decide, by decide⟩

/-- C4 amended: `merge_unique` splits each value on the delimiter characters,
trims fragments, drops empties, deduplicates preserving first-seen order over
the whole sequence (proved against the independent `dedupFirst` reference) and
joins with `;`; `merge_unique(["a;b", "b;c"]) = "a;b;c"`; and — provided the
resolved image column is not also a label column — the MAIN row's image column
equals this merge applied to every input row's image value in row order. -/
theorem C4_merge (df : Dataset) (p pc mt : String) (ti : Int)
    (pcCol : String) (base0 : Row)
    (hpc : hmap df.cols "PRODUCT_CODE" = some pcCol)
    (hb : ilocRow df.rows ti = some base0) :
    merge_images_unique ["a;b", "b;c"] = "a;b;c"
    ∧ (∀ vs : List String, merge_images_unique vs
        = String.intercalate ";" (dedupFirst ((vs.map tokensOf).flatten)))
    ∧ (∀ ic, hmap df.cols "IMAGES" = some ic → ic ∉ LABEL_COLS df.cols →
        getVal (rowIx (okRows (build_variants df p pc mt ti)) 0) ic
          = merge_images_unique (df.rows.map (fun r => getVal r ic))) := by
  refine ⟨by decide, merge_images_unique_spec, ?_⟩
  intro ic hic hlab
  have hmem : ic ∈ df.cols := mem_of_hmap hic
  rw [okRows_build df p pc mt ti pcCol base0 hpc hb, rowIx_zero,
    getVal_projectRow, if_pos hmem,
    make_main_images _ _ _ _ _ _ _ _ hic hlab]
  unfold imagesOf
  rw [hic]
  exact congrArg merge_images_unique (ensureAll_getVal df ic)

/-- C4 witness: a three-row dataset reproduces the spec's image-merge
scenario on MAIN. -/
theorem C4_merge_witness :
    getVal (rowIx (okRows (build_variants
      ⟨["[PRODUCT_CODE]", "[IMAGES]"],
       [[("[PRODUCT_CODE]", "A"), ("[IMAGES]", "img1.jpg;img2.jpg")],
        [("[PRODUCT_CODE]", "B"), ("[IMAGES]", "img2.jpg")],
        [("[PRODUCT_CODE]", "C"), ("[IMAGES]", "img3.jpg")]]⟩
      "" "P" "" 0)) 0) "[IMAGES]" = "img1.jpg;img2.jpg;img3.jpg" := by
  have h := (C4_merge
    ⟨["[PRODUCT_CODE]", "[IMAGES]"],
     [[("[PRODUCT_CODE]", "A"), ("[IMAGES]", "img1.jpg;img2.jpg")],
      [("[PRODUCT_CODE]", "B"), ("[IMAGES]", "img2.jpg")],
      [("[PRODUCT_CODE]", "C"), ("[IMAGES]", "img3.jpg")]]⟩
    "" "P" "" 0 "[PRODUCT_CODE]"
    [("[PRODUCT_CODE]", "A"), ("[IMAGES]", "img1.jpg;img2.jpg")]
    (by decide) (by decide)).2.2 "[IMAGES]" (by decide) (by decide)
  rw [h]
  decide

/-- C5 counterexample: `first(";x")` returns the empty first fragment, not the
first *non-empty* fragment `"x"` that the claim (and the spec reference
`firstNonEmptySpec`) demands. -/
theorem C5_counterexample :
    first_image ";x" = "" ∧ firstNonEmptySpec ";x" = "x"
    ∧ ("" : String) ≠ "x" := by
  refine ⟨by decide, by decide, by decide⟩

/-- C5 amended: `first` returns the *trimmed first fragment* (the text before
the first delimiter, which may be empty even when later fragments are not),
`""` for an empty value; it agrees with the spec's "first non-empty fragment"
whenever that first fragment is non-empty — in particular
`first("x,y,z") = "x"` and `first("") = ""`; and — provided the resolved image
column is not also a label column — every variant row's image column equals
`first` of that row's own original image value. -/
theorem C5_first (df : Dataset) (p pc mt : String) (ti : Int)
    (pcCol : String) (base0 : Row)
    (hpc : hmap df.cols "PRODUCT_CODE" = some pcCol)
    (hb : ilocRow df.rows ti = some base0) :
    first_image "x,y,z" = "x"
    ∧ first_image "" = ""
    ∧ (∀ v : String, first_image v = strTrim ((splitRaw (strTrim v)).headD ""))
    ∧ (∀ v : String, strTrim ((splitRaw (strTrim v)).headD "") ≠ "" →
        first_image v = firstNonEmptySpec v)
    ∧ (∀ ic, hmap df.cols "IMAGES" = some ic → ic ∉ LABEL_COLS df.cols →
        ∀ i, i < df.rows.length →
          getVal (rowIx (okRows (build_variants df p pc mt ti)) (i + 1)) ic
            = first_image (getVal (rowIx df.rows i) ic)) := by
  refine ⟨by decide, by decide, first_image_frag, first_image_spec_agree, ?_⟩
  intro ic hic hlab i hi
  have hmem : ic ∈ df.cols := mem_of_hmap hic
  have hlen : i < (ensureAll df).rows.length := by
    rw [ensureAll_length]; exact hi
  rw [okRows_build df p pc mt ti pcCol base0 hpc hb, rowIx_succ,
    rowIx_map _ _ i hlen, getVal_projectRow, if_pos hmem,
    make_variant_images _ _ _ _ _ _ _ hic hlab, ensure_rowIx_getVal]

/-- C5 witness: the per-variant image values of the spec's scenario. -/
theorem C5_first_witness :
    getVal (rowIx (okRows (build_variants
      ⟨["[PRODUCT_CODE]", "[IMAGES]"],
       [[("[PRODUCT_CODE]", "A"), ("[IMAGES]", "img1.jpg;img2.jpg")],
        [("[PRODUCT_CODE]", "B"), ("[IMAGES]", "img2.jpg")]]⟩
      "" "P" "" 0)) 1) "[IMAGES]" = "img1.jpg" := by
  have h := (C5_first
    ⟨["[PRODUCT_CODE]", "[IMAGES]"],
     [[("[PRODUCT_CODE]", "A"), ("[IMAGES]", "img1.jpg;img2.jpg")],
      [("[PRODUCT_CODE]", "B"), ("[IMAGES]", "img2.jpg")]]⟩
    "" "P" "" 0 "[PRODUCT_CODE]"
    [("[PRODUCT_CODE]", "A"), ("[IMAGES]", "img1.jpg;img2.jpg")]
    (by decide) (by decide)).2.2.2.2 "[IMAGES]" (by decide) (by decide) 0
    (by decide)
  rw [show (0 + 1 : Nat) = 1 from rfl] at h
  rw [h]
  decide

/-! ### Claims C1–C3 and C10 -/

/-- C1 counterexample: a dataset whose only column matches the shared
product-code role (by substring) *and* the label marker resolves the code
column, yet the MAIN row's shared-code value is the forced label value `"0"`,
not the configured parent code `"P"` — the label loop runs after the code
assignment — so the claim's universal form fails. -/
theorem C1_counterexample :
    hmap ["PRODUCT_CODE LABEL_ACTIVE_YN"] "PRODUCT_CODE"
        = some "PRODUCT_CODE LABEL_ACTIVE_YN"
    ∧ getVal (rowIx (okRows (build_variants
        ⟨["PRODUCT_CODE LABEL_ACTIVE_YN"],
         [[("PRODUCT_CODE LABEL_ACTIVE_YN", "A")]]⟩
        "" "P" "" 0)) 0) "PRODUCT_CODE LABEL_ACTIVE_YN" = "0"
    ∧ ("0" : String) ≠ "P" := by
  refine ⟨by decide, by decide, by decide⟩

/-- C1 amended: provided the resolved shared-code and variant-code columns are
not aliased with any other column the synthesizers overwrite, the MAIN row's
shared-code column equals the configured parent code and its variant-code
column is empty, and every variant row's shared-code column equals the same
parent code while its variant-code column equals that input row's original
shared-code value (captured before the overwrite). -/
theorem C1_codes (df : Dataset) (p pc mt : String) (ti : Int)
    (pcCol vcCol : String) (base0 : Row)
    (hpc : hmap df.cols "PRODUCT_CODE" = some pcCol)
    (hvc : hmap df.cols "VARIANT_CODE" = some vcCol)
    (hb : ilocRow df.rows ti = some base0)
    (hk1 : HmapAvoids df.cols mainKeys pcCol)
    (hp1 : resolveParam df.cols p ≠ pcCol)
    (hav1 : AvoidsTail df.cols pcCol)
    (hk2 : HmapAvoids df.cols varKeys pcCol)
    (hmo1 : pcCol ∉ main_only df.cols)
    (hcm1 : pcCol ∉ common_params df)
    (hk3 : HmapAvoids df.cols mainPostVCKeys vcCol)
    (hp2 : resolveParam df.cols p ≠ vcCol)
    (hav2 : AvoidsTail df.cols vcCol)
    (hk4 : HmapAvoids df.cols varPostVCKeys vcCol)
    (hmo2 : vcCol ∉ main_only df.cols)
    (hcm2 : vcCol ∉ common_params df) :
    getVal (rowIx (okRows (build_variants df p pc mt ti)) 0) pcCol = pc
    ∧ getVal (rowIx (okRows (build_variants df p pc mt ti)) 0) vcCol = ""
    ∧ ∀ i, i < df.rows.length →
        getVal (rowIx (okRows (build_variants df p pc mt ti)) (i + 1)) pcCol = pc
        ∧ getVal (rowIx (okRows (build_variants df p pc mt ti)) (i + 1)) vcCol
            = getVal (rowIx df.rows i) pcCol := by
  have hrows := okRows_build df p pc mt ti pcCol base0 hpc hb
  have hm1 : pcCol ∈ df.cols := mem_of_hmap hpc
  have hm2 : vcCol ∈ df.cols := mem_of_hmap hvc
  refine ⟨?_, ?_, ?_⟩
  · rw [hrows, rowIx_zero, getVal_projectRow, if_pos hm1]
    exact make_main_code _ _ _ _ _ _ _ hk1 hp1 hav1
  · rw [hrows, rowIx_zero, getVal_projectRow, if_pos hm2]
    exact make_main_vc _ _ _ _ _ _ _ _ hvc hk3 hp2 hav2
  · intro i hi
    have hlen : i < (ensureAll df).rows.length := by
      rw [ensureAll_length]; exact hi
    constructor
    · rw [hrows, rowIx_succ, rowIx_map _ _ i hlen, getVal_projectRow, if_pos hm1]
      exact make_variant_code _ _ _ _ _ _ hk2 hmo1 hcm1 hav1
    · rw [hrows, rowIx_succ, rowIx_map _ _ i hlen, getVal_projectRow, if_pos hm2]
      rw [make_variant_vc _ _ _ _ _ _ _ hvc hk4 hmo2 hcm2 hav2]
      exact ensure_rowIx_getVal df pcCol i

/-- C1 witness: a clean two-row dataset gets parent code `"P"` everywhere,
empty MAIN variant-code, and the first row's original code on variant 1. -/
theorem C1_codes_witness :
    getVal (rowIx (okRows (build_variants
      ⟨["[PRODUCT_CODE]", "[VARIANT_CODE]"],
       [[("[PRODUCT_CODE]", "A1"), ("[VARIANT_CODE]", "")],
        [("[PRODUCT_CODE]", "A2"), ("[VARIANT_CODE]", "")]]⟩
      "" "P" "" 0)) 0) "[PRODUCT_CODE]" = "P"
    ∧ getVal (rowIx (okRows (build_variants
      ⟨["[PRODUCT_CODE]", "[VARIANT_CODE]"],
       [[("[PRODUCT_CODE]", "A1"), ("[VARIANT_CODE]", "")],
        [("[PRODUCT_CODE]", "A2"), ("[VARIANT_CODE]", "")]]⟩
      "" "P" "" 0)) 0) "[VARIANT_CODE]" = ""
    ∧ getVal (rowIx (okRows (build_variants
      ⟨["[PRODUCT_CODE]", "[VARIANT_CODE]"],
       [[("[PRODUCT_CODE]", "A1"), ("[VARIANT_CODE]", "")],
        [("[PRODUCT_CODE]", "A2"), ("[VARIANT_CODE]", "")]]⟩
      "" "P" "" 0)) 1) "[VARIANT_CODE]" = "A1" := by
  have h := C1_codes
    ⟨["[PRODUCT_CODE]", "[VARIANT_CODE]"],
     [[("[PRODUCT_CODE]", "A1"), ("[VARIANT_CODE]", "")],
      [("[PRODUCT_CODE]", "A2"), ("[VARIANT_CODE]", "")]]⟩
    "" "P" "" 0 "[PRODUCT_CODE]" "[VARIANT_CODE]"
    [("[PRODUCT_CODE]", "A1"), ("[VARIANT_CODE]", "")]
    (by decide) (by decide) (by decide) (by decide) (by decide) (by decide)
    (by decide) (by decide) (by decide) (by decide) (by decide) (by decide)
    (by decide) (by decide) (by decide)
  exact ⟨h.1, h.2.1, ((h.2.2 0 (by decide)).2).trans (by decide)⟩

/-- C2 counterexample: when the caller's distinguishing parameter is itself
classified common (all rows agree on `"x"`), the MAIN row does *not* keep the
template row's value for that common column — it is cleared — refuting the
claim's "the MAIN row keeps the template row's value for it". -/
theorem C2_counterexample :
    "[PARAMETER A]" ∈ common_params
        ⟨["[PRODUCT_CODE]", "[PARAMETER A]"],
         [[("[PRODUCT_CODE]", "A"), ("[PARAMETER A]", "x")],
          [("[PRODUCT_CODE]", "B"), ("[PARAMETER A]", "x")]]⟩
    ∧ getVal [("[PRODUCT_CODE]", "A"), ("[PARAMETER A]", "x")] "[PARAMETER A]"
        = "x"
    ∧ getVal (rowIx (okRows (build_variants
        ⟨["[PRODUCT_CODE]", "[PARAMETER A]"],
         [[("[PRODUCT_CODE]", "A"), ("[PARAMETER A]", "x")],
          [("[PRODUCT_CODE]", "B"), ("[PARAMETER A]", "x")]]⟩
        "[PARAMETER A]" "P" "" 0)) 0) "[PARAMETER A]" = ""
    ∧ ("" : String) ≠ "x" := by
  refine ⟨by decide, by decide, by decide, by decide⟩

/-- C2 amended: a parameter column is classified common iff its set of
distinct non-empty trimmed values over all input rows has cardinality at most
one; every common column that is not also the image or a label column is empty
on every variant row; and the MAIN row keeps the template row's value for a
common column provided that column is not the resolved distinguishing
parameter and not aliased with any other overwritten column. -/
theorem C2_common (df : Dataset) (p pc mt : String) (ti : Int)
    (pcCol : String) (base0 : Row)
    (hpc : hmap df.cols "PRODUCT_CODE" = some pcCol)
    (hb : ilocRow df.rows ti = some base0) :
    (∀ c ∈ PARAM_COLS df.cols,
        (c ∈ common_params df ↔ (distinctNonEmpty df c).card ≤ 1))
    ∧ (∀ c ∈ common_params df, AvoidsTail df.cols c →
        ∀ i, i < df.rows.length →
          getVal (rowIx (okRows (build_variants df p pc mt ti)) (i + 1)) c = "")
    ∧ (∀ c ∈ common_params df,
        pcCol ≠ c → HmapAvoids df.cols mainKeys c →
        resolveParam df.cols p ≠ c → AvoidsTail df.cols c →
          getVal (rowIx (okRows (build_variants df p pc mt ti)) 0) c
            = getVal base0 c) := by
  have hrows := okRows_build df p pc mt ti pcCol base0 hpc hb
  refine ⟨fun c hc => common_iff df c hc, ?_, ?_⟩
  · intro c hc hav i hi
    have hm : c ∈ df.cols := mem_of_common hc
    have hlen : i < (ensureAll df).rows.length := by
      rw [ensureAll_length]; exact hi
    rw [hrows, rowIx_succ, rowIx_map _ _ i hlen, getVal_projectRow, if_pos hm]
    exact make_variant_common _ _ _ _ _ _ _ hc hav
  · intro c hc h0 hk hp hav
    have hm : c ∈ df.cols := mem_of_common hc
    rw [hrows, rowIx_zero, getVal_projectRow, if_pos hm]
    exact make_main_untouched _ _ _ _ _ _ _ _ h0 hk hp hav

/-- C2 witness: `[PARAMETER B]` (constant `"cotton"`) is common, blanked on a
variant row, and kept with the template value on MAIN; the distinguishing
`[PARAMETER A]` (values `S`/`M`) is untouched by the classification. -/
theorem C2_common_witness :
    getVal (rowIx (okRows (build_variants
      ⟨["[PRODUCT_CODE]", "[PARAMETER A]", "[PARAMETER B]"],
       [[("[PRODUCT_CODE]", "A1"), ("[PARAMETER A]", "S"), ("[PARAMETER B]", "cotton")],
        [("[PRODUCT_CODE]", "A2"), ("[PARAMETER A]", "M"), ("[PARAMETER B]", "cotton")]]⟩
      "[PARAMETER A]" "P" "" 0)) 1) "[PARAMETER B]" = ""
    ∧ getVal (rowIx (okRows (build_variants
      ⟨["[PRODUCT_CODE]", "[PARAMETER A]", "[PARAMETER B]"],
       [[("[PRODUCT_CODE]", "A1"), ("[PARAMETER A]", "S"), ("[PARAMETER B]", "cotton")],
        [("[PRODUCT_CODE]", "A2"), ("[PARAMETER A]", "M"), ("[PARAMETER B]", "cotton")]]⟩
      "[PARAMETER A]" "P" "" 0)) 0) "[PARAMETER B]" = "cotton" := by
  have h := C2_common
    ⟨["[PRODUCT_CODE]", "[PARAMETER A]", "[PARAMETER B]"],
     [[("[PRODUCT_CODE]", "A1"), ("[PARAMETER A]", "S"), ("[PARAMETER B]", "cotton")],
      [("[PRODUCT_CODE]", "A2"), ("[PARAMETER A]", "M"), ("[PARAMETER B]", "cotton")]]⟩
    "[PARAMETER A]" "P" "" 0 "[PRODUCT_CODE]"
    [("[PRODUCT_CODE]", "A1"), ("[PARAMETER A]", "S"), ("[PARAMETER B]", "cotton")]
    (by decide) (by decide)
  refine ⟨h.2.1 "[PARAMETER B]" (by decide) (by decide) 0 (by decide), ?_⟩
  exact (h.2.2 "[PARAMETER B]" (by decide) (by decide) (by decide) (by decide)
    (by decide)).trans (by decide)

/-- C3 counterexample: when the resolved distinguishing parameter's values
agree across all rows it is classified common, and the common-parameter
clearing step *does* clear it on every variant — the original per-row value
`"x"` is not preserved — refuting the claim. -/
theorem C3_counterexample :
    resolveParam ["[PRODUCT_CODE]", "[PARAMETER A]"] "[PARAMETER A]"
        = "[PARAMETER A]"
    ∧ "[PARAMETER A]" ∈ PARAM_COLS ["[PRODUCT_CODE]", "[PARAMETER A]"]
    ∧ getVal [("[PRODUCT_CODE]", "A"), ("[PARAMETER A]", "x")] "[PARAMETER A]"
        = "x"
    ∧ getVal (rowIx (okRows (build_variants
        ⟨["[PRODUCT_CODE]", "[PARAMETER A]"],
         [[("[PRODUCT_CODE]", "A"), ("[PARAMETER A]", "x")],
          [("[PRODUCT_CODE]", "B"), ("[PARAMETER A]", "x")]]⟩
        "[PARAMETER A]" "P" "" 0)) 1) "[PARAMETER A]" = ""
    ∧ ("" : String) ≠ "x" := by
  refine ⟨by decide, by decide, by decide, by decide, by decide⟩

/-- C3 amended: provided the resolved distinguishing parameter column is *not*
classified common (its non-empty values differ) and is not aliased with any
other overwritten column, it is empty on the output MAIN row and preserved
with its original per-row value on each output variant row. -/
theorem C3_distinguishing (df : Dataset) (p pc mt : String) (ti : Int)
    (pcCol q : String) (base0 : Row)
    (hpc : hmap df.cols "PRODUCT_CODE" = some pcCol)
    (hb : ilocRow df.rows ti = some base0)
    (hq : resolveParam df.cols p = q)
    (hqp : q ∈ PARAM_COLS df.cols)
    (hnc : q ∉ common_params df)
    (ht : hmap df.cols "TITLE" ≠ some q)
    (hav : AvoidsTail df.cols q)
    (h0 : pcCol ≠ q)
    (hk : HmapAvoids df.cols varKeys q)
    (hmo : q ∉ main_only df.cols) :
    getVal (rowIx (okRows (build_variants df p pc mt ti)) 0) q = ""
    ∧ ∀ i, i < df.rows.length →
        getVal (rowIx (okRows (build_variants df p pc mt ti)) (i + 1)) q
          = getVal (rowIx df.rows i) q := by
  have hrows := okRows_build df p pc mt ti pcCol base0 hpc hb
  have hm : q ∈ df.cols := mem_of_param_col hqp
  have hne : q ≠ "" := param_col_ne_empty hqp
  constructor
  · rw [hrows, rowIx_zero, getVal_projectRow, if_pos hm, hq]
    exact make_main_param _ _ _ _ _ _ _ hne ht hav
  · intro i hi
    have hlen : i < (ensureAll df).rows.length := by
      rw [ensureAll_length]; exact hi
    rw [hrows, rowIx_succ, rowIx_map _ _ i hlen, getVal_projectRow, if_pos hm]
    rw [make_variant_untouched _ _ _ _ _ _ _ h0 hk hmo hnc hav]
    exact ensure_rowIx_getVal df q i

/-- C3 witness: the distinguishing `[PARAMETER A]` with distinct values
`S`/`M` is blanked on MAIN and keeps `"S"` on variant 1. -/
theorem C3_distinguishing_witness :
    getVal (rowIx (okRows (build_variants
      ⟨["[PRODUCT_CODE]", "[PARAMETER A]"],
       [[("[PRODUCT_CODE]", "A1"), ("[PARAMETER A]", "S")],
        [("[PRODUCT_CODE]", "A2"), ("[PARAMETER A]", "M")]]⟩
      "[PARAMETER A]" "P" "" 0)) 0) "[PARAMETER A]" = ""
    ∧ getVal (rowIx (okRows (build_variants
      ⟨["[PRODUCT_CODE]", "[PARAMETER A]"],
       [[("[PRODUCT_CODE]", "A1"), ("[PARAMETER A]", "S")],
        [("[PRODUCT_CODE]", "A2"), ("[PARAMETER A]", "M")]]⟩
      "[PARAMETER A]" "P" "" 0)) 1) "[PARAMETER A]" = "S" := by
  have h := C3_distinguishing
    ⟨["[PRODUCT_CODE]", "[PARAMETER A]"],
     [[("[PRODUCT_CODE]", "A1"), ("[PARAMETER A]", "S")],
      [("[PRODUCT_CODE]", "A2"), ("[PARAMETER A]", "M")]]⟩
    "[PARAMETER A]" "P" "" 0 "[PRODUCT_CODE]" "[PARAMETER A]"
    [("[PRODUCT_CODE]", "A1"), ("[PARAMETER A]", "S")]
    (by decide) (by decide) (by decide) (by decide) (by decide) (by decide)
    (by decide) (by decide) (by decide) (by decide)
  exact ⟨h.1, (h.2 0 (by decide)).trans (by decide)⟩

/-- C10 counterexample: a column matching both the language role and the label
marker resolves as the LANGUAGE column, yet MAIN's value is the forced label
`"0"`, not `"sk"` — the claim's universal form fails. -/
theorem C10_counterexample :
    hmap ["[PRODUCT_CODE]", "LANGUAGE LABEL_ACTIVE_YN"] "LANGUAGE"
        = some "LANGUAGE LABEL_ACTIVE_YN"
    ∧ getVal (rowIx (okRows (build_variants
        ⟨["[PRODUCT_CODE]", "LANGUAGE LABEL_ACTIVE_YN"],
         [[("[PRODUCT_CODE]", "A"), ("LANGUAGE LABEL_ACTIVE_YN", "en")]]⟩
        "" "P" "" 0)) 0) "LANGUAGE LABEL_ACTIVE_YN" = "0"
    ∧ ("0" : String) ≠ "sk" := by
  refine ⟨by decide, by decide, by decide⟩

/-- C10 amended: provided the resolved LANGUAGE column is not aliased with any
other overwritten column, the MAIN row's LANGUAGE value is the constant
`"sk"`, overwriting whatever the template row carried, while every variant row
keeps its original LANGUAGE value unchanged. -/
theorem C10_language (df : Dataset) (p pc mt : String) (ti : Int)
    (pcCol lc : String) (base0 : Row)
    (hpc : hmap df.cols "PRODUCT_CODE" = some pcCol)
    (hl : hmap df.cols "LANGUAGE" = some lc)
    (hb : ilocRow df.rows ti = some base0)
    (hk : HmapAvoids df.cols mainTailKeys lc)
    (hp : resolveParam df.cols p ≠ lc)
    (hav : AvoidsTail df.cols lc)
    (h0 : pcCol ≠ lc)
    (hkv : HmapAvoids df.cols varKeys lc)
    (hmo : lc ∉ main_only df.cols)
    (hcm : lc ∉ common_params df) :
    getVal (rowIx (okRows (build_variants df p pc mt ti)) 0) lc = "sk"
    ∧ ∀ i, i < df.rows.length →
        getVal (rowIx (okRows (build_variants df p pc mt ti)) (i + 1)) lc
          = getVal (rowIx df.rows i) lc := by
  have hrows := okRows_build df p pc mt ti pcCol base0 hpc hb
  have hm : lc ∈ df.cols := mem_of_hmap hl
  constructor
  · rw [hrows, rowIx_zero, getVal_projectRow, if_pos hm]
    exact make_main_lang _ _ _ _ _ _ _ _ hl hk hp hav
  · intro i hi
    have hlen : i < (ensureAll df).rows.length := by
      rw [ensureAll_length]; exact hi
    rw [hrows, rowIx_succ, rowIx_map _ _ i hlen, getVal_projectRow, if_pos hm]
    rw [make_variant_untouched _ _ _ _ _ _ _ h0 hkv hmo hcm hav]
    exact ensure_rowIx_getVal df lc i

/-- C10 witness: a `[LANGUAGE]` column holding `"en"` becomes `"sk"` on MAIN
and stays `"en"` on the variant row. -/
theorem C10_language_witness :
    getVal (rowIx (okRows (build_variants
      ⟨["[PRODUCT_CODE]", "[LANGUAGE]"],
       [[("[PRODUCT_CODE]", "A"), ("[LANGUAGE]", "en")]]⟩
      "" "P" "" 0)) 0) "[LANGUAGE]" = "sk"
    ∧ getVal (rowIx (okRows (build_variants
      ⟨["[PRODUCT_CODE]", "[LANGUAGE]"],
       [[("[PRODUCT_CODE]", "A"), ("[LANGUAGE]", "en")]]⟩
      "" "P" "" 0)) 1) "[LANGUAGE]" = "en" := by
  have h := C10_language
    ⟨["[PRODUCT_CODE]", "[LANGUAGE]"],
     [[("[PRODUCT_CODE]", "A"), ("[LANGUAGE]", "en")]]⟩
    "" "P" "" 0 "[PRODUCT_CODE]" "[LANGUAGE]"
    [("[PRODUCT_CODE]", "A"), ("[LANGUAGE]", "en")]
    (by decide) (by decide) (by decide) (by decide) (by decide) (by decide)
    (by decide) (by decide) (by decide) (by decide)
  exact ⟨h.1, (h.2 0 (by decide)).trans (by decide)⟩
